import Mathlib

/-!
Shallow embedding of the visible QuCumber repository excerpt:

* `docs/Makefile` (Sphinx documentation build rules),
* `.pre-commit-config.yaml` (lint hook configuration),
* `examples/Tutorial2_TrainComplexWaveFunction/tutorial_qubits.ipynb`
  (the tutorial notebook, transcribed statement by statement).

Make variables (`SPHINXOPTS`, `SOURCEDIR`, `BUILDDIR`, ...) are expanded at
transcription time with their values from the Makefile; the user-overridable
variable `O` is empty by default and is expanded to nothing.
-/

namespace QC

/-! ### docs/Makefile : variables -/

/-- Tokenized value of `SPHINXOPTS = -j 1 -aT` (docs/Makefile). -/
def sphinxOpts : List String := ["-j", "1", "-aT"]

/-- Tokenized value of the `SPHINXAUTO` watch/ignore arguments (docs/Makefile). -/
def sphinxAuto : List String :=
  ["--watch", "../qucumber", "--watch", "../examples",
   "--ignore", "*.swp", "--ignore", "**/.~*.ipynb",
   "--ignore", "**/*-checkpoint.ipynb",
   "--re-ignore", "_examples/*", "--ignore", "Makefile"]

/-- Value of `SOURCEDIR = .` (docs/Makefile). -/
def sourceDir : String := "."

/-- Value of `BUILDDIR = _build` (docs/Makefile). -/
def buildDir : String := "_build"

/-! ### docs/Makefile : rules -/

/-- Token of a recipe command: a literal word, or the automatic variable
`$@` standing for the target being built. -/
inductive Tok where
  | lit (s : String)
  | targetVar
deriving DecidableEq

/-- Instantiation of a recipe token at a concrete target name. -/
def Tok.inst (t : String) : Tok → String
  | .lit s => s
  | .targetVar => t

/-- One logical recipe line. `silent` records a leading `@`; `ignoreErrors`
records a leading `-` (make's ignore-errors marker, used by no recipe of this
Makefile). -/
structure RecipeLine where
  silent : Bool
  ignoreErrors : Bool
  toks : List Tok
deriving DecidableEq

/-- Kind of a Makefile rule: an ordinary explicit rule, a `%` pattern rule, or
a special built-in target such as `.PHONY`. -/
inductive RuleKind where
  | normal
  | patternRule
  | special
deriving DecidableEq

/-- A rule of the Makefile, in source order. -/
structure MakeRule where
  target : String
  kind : RuleKind
  prereqs : List String
  recipe : List RecipeLine
deriving DecidableEq

/-- Turns a list of plain words into literal recipe tokens. -/
def lits (l : List String) : List Tok := l.map Tok.lit

/-- Rule `help:` - sphinx-build in make mode on the `help` builder. -/
def helpRule : MakeRule :=
  { target := "help", kind := .normal, prereqs := [],
    recipe := [⟨true, false,
      lits (["sphinx-build", "-M", "help", sourceDir, buildDir] ++ sphinxOpts)⟩] }

/-- Line `.PHONY: help Makefile livehtml livetest`. -/
def phonyRule : MakeRule :=
  { target := ".PHONY", kind := .special,
    prereqs := ["help", "Makefile", "livehtml", "livetest"], recipe := [] }

/-- The catch-all rule `%: Makefile`, routing unknown targets to sphinx-build
in make mode with the target name substituted for `$@`. -/
def catchAllRule : MakeRule :=
  { target := "%", kind := .patternRule, prereqs := ["Makefile"],
    recipe := [⟨true, false,
      [Tok.lit "sphinx-build", Tok.lit "-M", Tok.targetVar,
       Tok.lit sourceDir, Tok.lit buildDir] ++ lits sphinxOpts⟩] }

/-- Rule `test:` - sphinx-build with `-nW -b dummy`. -/
def testRule : MakeRule :=
  { target := "test", kind := .normal, prereqs := [],
    recipe := [⟨true, false,
      lits (["sphinx-build", "-nW", "-b", "dummy", sourceDir, buildDir] ++ sphinxOpts)⟩] }

/-- Rule `spelling:` - make mode plus a trailing `-W`. -/
def spellingRule : MakeRule :=
  { target := "spelling", kind := .normal, prereqs := [],
    recipe := [⟨true, false,
      lits (["sphinx-build", "-M", "spelling", sourceDir, buildDir] ++ sphinxOpts ++ ["-W"])⟩] }

/-- Rule `linkcheck:` - make mode plus a trailing `-W`. -/
def linkcheckRule : MakeRule :=
  { target := "linkcheck", kind := .normal, prereqs := [],
    recipe := [⟨true, false,
      lits (["sphinx-build", "-M", "linkcheck", sourceDir, buildDir] ++ sphinxOpts ++ ["-W"])⟩] }

/-- Rule `livehtml:` - sphinx-autobuild of the html builder. -/
def livehtmlRule : MakeRule :=
  { target := "livehtml", kind := .normal, prereqs := [],
    recipe := [⟨false, false,
      lits (["sphinx-autobuild", "-b", "html"] ++ sphinxAuto ++ sphinxOpts
        ++ [sourceDir, buildDir ++ "/html"])⟩] }

/-- Rule `livetest:` - sphinx-autobuild with `-nW -b dummy`. -/
def livetestRule : MakeRule :=
  { target := "livetest", kind := .normal, prereqs := [],
    recipe := [⟨false, false,
      lits (["sphinx-autobuild", "-nW", "-b", "dummy"] ++ sphinxAuto ++ sphinxOpts
        ++ [sourceDir, buildDir])⟩] }

/-- All rules of docs/Makefile, in source order. -/
def docsMakefileRules : List MakeRule :=
  [helpRule, phonyRule, catchAllRule, testRule, spellingRule,
   linkcheckRule, livehtmlRule, livetestRule]

/-! ### GNU make semantics needed to interpret the Makefile -/

/-- Targets of the explicitly defined (non-pattern, non-special) rules. -/
def explicitTargets : List String :=
  docsMakefileRules.filterMap
    (fun r => if r.kind = RuleKind.normal then some r.target else none)

/-- Looks up an explicit rule for the given target. -/
def findExplicit (t : String) : Option MakeRule :=
  docsMakefileRules.find? (fun r => r.kind == RuleKind.normal && r.target == t)

/-- Models make's rule selection: an explicit rule for the target wins;
otherwise the `%` pattern rule (which matches any name) applies. -/
def resolveRule (t : String) : Option MakeRule :=
  match findExplicit t with
  | some r => some r
  | none => docsMakefileRules.find? (fun r => r.kind == RuleKind.patternRule)

/-- Commands of a rule's recipe, with `$@` instantiated at the target. -/
def instantiateRecipe (r : MakeRule) (t : String) : List (List String) :=
  r.recipe.map (fun line => line.toks.map (Tok.inst t))

/-- Commands run when the given target is built. -/
def commandsFor (t : String) : List (List String) :=
  match resolveRule t with
  | some r => instantiateRecipe r t
  | none => []

/-- The single recipe command of a target (every rule of this Makefile has one
logical recipe line). -/
def theRecipeCmd (t : String) : List String := (commandsFor t).flatten

/-- True when the target name begins with a dot. -/
def startsWithDot (s : String) : Bool :=
  match s.toList with
  | '.' :: _ => true
  | _ => false

/-- Models make's default goal: the target of the first non-special,
non-pattern rule whose name does not begin with a dot. -/
def defaultGoal : Option String :=
  (docsMakefileRules.find?
    (fun r => r.kind == RuleKind.normal && !startsWithDot r.target)).map MakeRule.target

/-- Commands run by `make` with an optional target argument: with no argument
the default goal is built. -/
def makeInvoke (t? : Option String) : List (List String) :=
  match t? with
  | some t => commandsFor t
  | none =>
    match defaultGoal with
    | some g => commandsFor g
    | none => []

/-! ### sphinx-build option flags -/

/-- Options of sphinx-build / sphinx-autobuild appearing in this Makefile that
consume the following token as their value. -/
def optsWithValue : List String :=
  ["-M", "-b", "-j", "--watch", "--ignore", "--re-ignore"]

/-- True when the token is an option flag (begins with a dash). -/
def isFlagTok (a : String) : Bool :=
  match a.toList with
  | '-' :: _ => true
  | _ => false

/-- Extracts the standalone flag tokens of a command line, skipping the value
consumed by each value-taking option and all positional arguments. -/
def flagToks : List String → List String
  | [] => []
  | [a] =>
    if optsWithValue.contains a then []
    else if isFlagTok a then [a] else []
  | a :: b :: rest =>
    if optsWithValue.contains a then flagToks rest
    else if isFlagTok a then a :: flagToks (b :: rest)
    else flagToks (b :: rest)

/-- True when a short-option token (possibly a cluster such as `-nW`)
carries the given option letter. -/
def shortFlagHas (c : Char) (a : String) : Bool :=
  match a.toList with
  | '-' :: '-' :: _ => false
  | '-' :: cs => cs.contains c
  | _ => false

/-- True when the command runs the documentation builder with `-W`
(turn warnings into errors), also as part of a cluster such as `-nW`. -/
def warningsAsErrors (cmd : List String) : Bool :=
  (flagToks cmd).any (shortFlagHas 'W')

/-- True when the command runs the documentation builder with `-n`
(nitpicky mode), also as part of a cluster such as `-nW`. -/
def nitpickFlag (cmd : List String) : Bool :=
  (flagToks cmd).any (shortFlagHas 'n')

/-- Models the documented exit behavior of sphinx-build with respect to
warnings: the build fails on a warning exactly when `-W` is present. -/
def sphinxFails (cmd : List String) (warningEmitted : Bool) : Bool :=
  warningEmitted && warningsAsErrors cmd

/-! ### A small regex engine for the pre-commit `files` patterns

The `files` value of the lint hooks is the Python regex
`^examples\/(.+)\/([^\/]+).ipynb`. Its constructs are single literal
characters, `.` (any character except newline), the class `[^/]`, and `+`
applied to such single-character atoms; the capture groups have no effect on
whether a path matches. pre-commit filters filenames with `re.search`, and
with a leading `^` anchor (no MULTILINE flag) a search succeeds exactly when
the pattern matches a prefix of the filename. -/

/-- Single-character regex atom. -/
inductive Atom where
  | lit (c : Char)
  | anyChar
  | nonSlash
deriving DecidableEq

/-- Whether an atom matches one character: a literal matches itself, `.`
matches anything except a newline, `[^/]` anything except a slash. -/
def Atom.matchesChar : Atom → Char → Bool
  | .lit c, a => a == c
  | .anyChar, a => a != '\n'
  | .nonSlash, a => a != '/'

/-- Regex shape sufficient for the hook patterns: atoms, concatenation, and
`+` over an atom. -/
inductive Re where
  | atom (a : Atom)
  | seq (r1 r2 : Re)
  | plus (a : Atom)
deriving DecidableEq

/-- Backtracking matcher for `a+` with continuation `k`: consume one or more
characters matched by `a`, then hand the rest to `k`. -/
def acceptPlus (a : Atom) (k : List Char → Bool) : List Char → Bool
  | [] => false
  | c :: rest => a.matchesChar c && (k rest || acceptPlus a k rest)

/-- Continuation-passing matcher: `r.accept k s` is true when some prefix of
`s` matches `r` and `k` accepts the corresponding rest of `s`. -/
def Re.accept : Re → (List Char → Bool) → List Char → Bool
  | .atom a, k, s =>
    match s with
    | [] => false
    | c :: rest => a.matchesChar c && k rest
  | .seq r1 r2, k, s => r1.accept (fun rest => r2.accept k rest) s
  | .plus a, k, s => acceptPlus a k s

/-- Models `re.search` of a `^`-anchored pattern without `$`: the pattern has
to match at the start of the string, and anything may follow. -/
def reSearch (r : Re) (s : String) : Bool := r.accept (fun _ => true) s.toList

/-- Prepends a sequence of literal-character atoms to a regex. -/
def litSeq (cs : List Char) (tail : Re) : Re :=
  cs.foldr (fun c acc => Re.seq (Re.atom (Atom.lit c)) acc) tail

/-- Transcription of the hook pattern `^examples\/(.+)\/([^\/]+).ipynb`
(`\/` is an escaped slash; the `.` before `ipynb` is an unescaped wildcard;
the groups are dropped as they do not affect matching). -/
def lintExamplesRe : Re :=
  litSeq "examples/".toList
    (Re.seq (Re.plus Atom.anyChar)
      (Re.seq (Re.atom (Atom.lit '/'))
        (Re.seq (Re.plus Atom.nonSlash)
          (Re.seq (Re.atom Atom.anyChar)
            (litSeq "ipyn".toList (Re.atom (Atom.lit 'b')))))))

/-! ### .pre-commit-config.yaml -/

/-- A hook of the `repo: local` block of `.pre-commit-config.yaml`.
`filesPat` keeps the source text of the `files` regex and `filesRe` its
transcription; `fileTypes` is the `types` list (defaulting to `[file]` when
the key is absent). -/
structure Hook where
  id : String
  name : String
  entry : List String
  language : String
  fileTypes : List String
  filesPat : Option String
  filesRe : Option Re
  passFilenames : Bool
deriving DecidableEq

/-- The `license-check` local hook. -/
def licenseCheckHook : Hook :=
  { id := "license-check", name := "license-check",
    entry := ["inv", "license-check"], language := "system",
    fileTypes := ["file", "python"], filesPat := none, filesRe := none,
    passFilenames := false }

/-- The `lint-examples-flake8` local hook. -/
def lintFlake8Hook : Hook :=
  { id := "lint-examples-flake8", name := "lint-examples-flake8",
    entry := ["inv", "lint-examples", "-l", "flake8"], language := "system",
    fileTypes := ["file"],
    filesPat := some "^examples\\/(.+)\\/([^\\/]+).ipynb",
    filesRe := some lintExamplesRe,
    passFilenames := false }

/-- The `lint-examples-black` local hook. -/
def lintBlackHook : Hook :=
  { id := "lint-examples-black", name := "lint-examples-black",
    entry := ["inv", "lint-examples", "-l", "black"], language := "system",
    fileTypes := ["file"],
    filesPat := some "^examples\\/(.+)\\/([^\\/]+).ipynb",
    filesRe := some lintExamplesRe,
    passFilenames := false }

/-- The three hooks of the `repo: local` block, in source order. -/
def localHooks : List Hook := [licenseCheckHook, lintFlake8Hook, lintBlackHook]

/-- The two remote hooks of the config, as (repo, hook id, args) triples. -/
def remoteHooks : List (String × String × List String) :=
  [("https://github.com/asottile/pyupgrade", "pyupgrade", ["--py36-plus"]),
   ("https://github.com/ambv/black", "black", [])]

/-- True when the path ends in `.py`. -/
def endsWithPy (f : String) : Bool :=
  match f.toList.reverse with
  | 'y' :: 'p' :: '.' :: _ => true
  | _ => false

/-- Models pre-commit's `types` tag check on a changed file path: every
changed path in this model is a regular file, and the `python` tag is
approximated by the `.py` extension. -/
def typeMatches (ty : String) (f : String) : Bool :=
  match ty with
  | "python" => endsWithPy f
  | _ => true

/-- True when the changed file path is selected for the hook: it must match
the hook's `files` regex (absent means everything matches) and carry all of
the hook's `types` tags. -/
def fileSelected (h : Hook) (f : String) : Bool :=
  (match h.filesRe with
   | some r => reSearch r f
   | none => true)
  && h.fileTypes.all (fun ty => typeMatches ty f)

/-- Models pre-commit's trigger condition: a hook runs exactly when the list
of changed files it is filtered down to is non-empty. -/
def hookTriggered (h : Hook) (changed : List String) : Bool :=
  !(changed.filter (fileSelected h)).isEmpty

/-- The command line a triggered hook executes: its `entry`, followed by the
selected filenames only when `pass_filenames` is set. -/
def hookCommand (h : Hook) (changed : List String) : Option (List String) :=
  if hookTriggered h changed then
    some (h.entry ++ (if h.passFilenames then changed.filter (fileSelected h) else []))
  else none

/-! ### The tutorial notebook

`tutorial_qubits.ipynb` is transcribed statement by statement, cell by cell.
A statement is an import, a function definition, an assignment of constant or
locally computed data, or a call (possibly binding its results to names).
String arguments that are passed through local variables holding string
constants (the four data-file paths, the save path) are inlined to those
constants. The notebook's Python source contains no `if`, `for`, `while`,
`try`/`except` or `raise` statement; the corresponding `Stmt` constructors
exist so that their absence is a checkable property of the transcription. -/

/-- A Python statement of a notebook code cell, at call granularity. -/
inductive Stmt where
  | importMods (mods : List String)
  | call (fn : String) (strArgs : List String) (binds : List String)
  | assignConst (names : List String)
  | defineFun (fname : String)
  | tryExcept
  | ifBranch
  | loopStmt
  | raiseErr
deriving DecidableEq

/-- The code cells of `tutorial_qubits.ipynb`, in order. -/
def notebookCells : List (List Stmt) :=
  [ -- cell 1: imports and seeding
    [.importMods ["numpy", "torch", "matplotlib.pyplot",
        "qucumber.nn_states.ComplexWaveFunction",
        "qucumber.callbacks.MetricEvaluator",
        "qucumber.utils.unitaries", "qucumber.utils.cplx",
        "qucumber.utils.training_statistics", "qucumber.utils.data",
        "qucumber"],
     .call "qucumber.set_random_seed" [] []],
    -- cell 2: data-file paths and the load
    [.assignConst ["train_path", "train_bases_path", "psi_path", "bases_path"],
     .call "data.load_data"
       ["qubits_train.txt", "qubits_psi.txt",
        "qubits_train_bases.txt", "qubits_bases.txt"]
       ["train_samples", "true_psi", "train_bases", "bases"]],
    -- cell 3: the unitary dictionary
    [.call "unitaries.create_dict" [] ["unitary_dict"]],
    -- cell 4: model instantiation
    [.assignConst ["nv", "nh"],
     .call "ComplexWaveFunction" [] ["nn_state"]],
    -- cell 5: hyperparameters
    [.assignConst ["epochs", "pbs", "nbs", "lr", "k"]],
    -- cell 6: coefficient-norm metric functions
    [.defineFun "alpha", .defineFun "beta", .defineFun "gamma", .defineFun "delta"],
    -- cell 7: evaluation callbacks
    [.assignConst ["period"],
     .call "nn_state.generate_hilbert_space" [] ["space"],
     .call "MetricEvaluator" [] ["callbacks"]],
    -- cell 8: training
    [.call "nn_state.fit" [] []],
    -- cell 9: reading back the recorded metrics
    [.assignConst ["fidelities"], .assignConst ["KLs"], .assignConst ["coeffs"],
     .call "np.arange" [] ["epoch"]],
    -- cell 10: plot styling
    [.assignConst ["params"],
     .call "plt.rcParams.update" [] [],
     .call "plt.style.use" [] []],
    -- cell 11: the three metric plots
    [.call "plt.subplots" [] ["fig", "axs"],
     .assignConst ["ax"], .call "ax.plot" [] [],
     .call "ax.set_ylabel" [] [], .call "ax.set_xlabel" [] [],
     .assignConst ["ax"], .call "ax.plot" [] [],
     .call "ax.set_ylabel" [] [], .call "ax.set_xlabel" [] [],
     .assignConst ["ax"], .call "ax.plot" [] [],
     .call "ax.set_ylabel" [] [], .call "ax.set_xlabel" [] [],
     .call "plt.tight_layout" [] [], .call "plt.show" [] []],
    -- cell 12: saving the trained parameters
    [.call "nn_state.save" ["saved_params.pt"] []]]

/-- The notebook as one straight-line statement list (the cells in order). -/
def notebookProgram : List Stmt := notebookCells.flatten

/-- True for the five core qucumber library calls the spec names: load data,
build the unitary dictionary, instantiate the model, fit, save. -/
def isCoreLibCall : Stmt → Bool
  | .call fn _ _ =>
    ["data.load_data", "unitaries.create_dict", "ComplexWaveFunction",
     "nn_state.fit", "nn_state.save"].contains fn
  | _ => false

/-- True exactly for the data-loading call. -/
def isLoadDataCall : Stmt → Bool
  | .call "data.load_data" _ _ => true
  | _ => false

/-- True for statement kinds that branch, loop, raise, or catch: the
constructs an error-handling path, a retry, or recovery logic would need. -/
def isHandlingOrBranching : Stmt → Bool
  | .tryExcept => true
  | .ifBranch => true
  | .loopStmt => true
  | .raiseErr => true
  | _ => false

/-! ### The save operation (library code absent from the excerpt) -/

/-- Result of a parameter-save: the file written and the keys of the named
tensors it holds. -/
structure SavedParams where
  path : String
  tensorKeys : List String
deriving DecidableEq

/-- Modelled from the spec: `ComplexWaveFunction.save` lives in the qucumber
library, which is absent from the excerpt; per the spec the save operation
writes a model-parameter file holding three named tensors, the weights,
visible biases and hidden biases, under the keys `weights`, `visible_bias`,
`hidden_bias`. -/
def complexWaveFunctionSave (p : String) : SavedParams :=
  { path := p, tensorKeys := ["weights", "visible_bias", "hidden_bias"] }

/-- The file-path arguments of the notebook's `nn_state.save` calls. -/
def notebookSavePaths : List String :=
  (notebookProgram.filterMap
    (fun s => match s with
      | .call "nn_state.save" args _ => some args
      | _ => none)).flatten

/-! ## Theorems -/

/-- C3: the save operation invoked at the end of the notebook writes a
model-parameter file named `saved_params.pt` containing exactly three named
tensors stored under the keys `weights`, `visible_bias`, `hidden_bias`. -/
theorem c3_saved_params_keys :
    notebookSavePaths = ["saved_params.pt"]
    ∧ (complexWaveFunctionSave "saved_params.pt").path = "saved_params.pt"
    ∧ (complexWaveFunctionSave "saved_params.pt").tensorKeys
        = ["weights", "visible_bias", "hidden_bias"]
    ∧ (complexWaveFunctionSave "saved_params.pt").tensorKeys.length = 3
    ∧ (complexWaveFunctionSave "saved_params.pt").tensorKeys.Nodup := by
  refine ⟨by decide, rfl, rfl, rfl, by decide⟩

/-- C4: the notebook's qucumber library calls occur exactly once each, in the
fixed order load data, build the unitary dictionary, instantiate the model,
fit, save (so save comes after fit), and no statement of the straight-line
program branches, loops, raises or catches. -/
theorem c4_notebook_call_order :
    notebookProgram.filter isCoreLibCall
      = [Stmt.call "data.load_data"
           ["qubits_train.txt", "qubits_psi.txt",
            "qubits_train_bases.txt", "qubits_bases.txt"]
           ["train_samples", "true_psi", "train_bases", "bases"],
         Stmt.call "unitaries.create_dict" [] ["unitary_dict"],
         Stmt.call "ComplexWaveFunction" [] ["nn_state"],
         Stmt.call "nn_state.fit" [] [],
         Stmt.call "nn_state.save" ["saved_params.pt"] []]
    ∧ notebookProgram.all (fun s => !isHandlingOrBranching s) = true := by
  exact ⟨by decide, by decide⟩

/-- C6: the notebook's single data-loading call consumes exactly the four
input files qubits_train.txt, qubits_psi.txt, qubits_train_bases.txt and
qubits_bases.txt, and binds the four corresponding results. -/
theorem c6_load_data_four_files :
    (notebookProgram.filter isLoadDataCall).length = 1
    ∧ notebookProgram.filter isLoadDataCall
      = [Stmt.call "data.load_data"
           ["qubits_train.txt", "qubits_psi.txt",
            "qubits_train_bases.txt", "qubits_bases.txt"]
           ["train_samples", "true_psi", "train_bases", "bases"]]
    ∧ (["qubits_train.txt", "qubits_psi.txt",
        "qubits_train_bases.txt", "qubits_bases.txt"] : List String).length = 4
    ∧ (["train_samples", "true_psi", "train_bases", "bases"] : List String).length = 4 := by
  exact ⟨by decide, by decide, rfl, rfl⟩

/-- C9: invoking make with no target argument behaves exactly like invoking
`make help`, because `help` is the target of the first rule of the Makefile. -/
theorem c9_default_goal_help :
    (docsMakefileRules.map MakeRule.target).head? = some "help"
    ∧ defaultGoal = some "help"
    ∧ makeInvoke none = makeInvoke (some "help") := by
  exact ⟨rfl, rfl, rfl⟩

/-- C1: every target name that matches none of the explicitly defined rules is
routed to the catch-all pattern rule, which runs sphinx-build in make mode on
that target name with exactly the option flags `-j 1 -aT`. -/
theorem c1_catch_all_routing (t : String) (ht : t ∉ explicitTargets) :
    resolveRule t = some catchAllRule
    ∧ commandsFor t = [["sphinx-build", "-M", t, ".", "_build", "-j", "1", "-aT"]] := by
  have hx : explicitTargets
      = ["help", "test", "spelling", "linkcheck", "livehtml", "livetest"] := by decide
  rw [hx] at ht
  simp only [List.mem_cons, List.not_mem_nil, or_false, not_or] at ht
  obtain ⟨h1, h2, h3, h4, h5, h6⟩ := ht
  have f1 : (("help" : String) == t) = false := beq_eq_false_iff_ne.mpr (Ne.symm h1)
  have f2 : (("test" : String) == t) = false := beq_eq_false_iff_ne.mpr (Ne.symm h2)
  have f3 : (("spelling" : String) == t) = false := beq_eq_false_iff_ne.mpr (Ne.symm h3)
  have f4 : (("linkcheck" : String) == t) = false := beq_eq_false_iff_ne.mpr (Ne.symm h4)
  have f5 : (("livehtml" : String) == t) = false := beq_eq_false_iff_ne.mpr (Ne.symm h5)
  have f6 : (("livetest" : String) == t) = false := beq_eq_false_iff_ne.mpr (Ne.symm h6)
  have e : findExplicit t = none := by
    simp [findExplicit, docsMakefileRules, helpRule, phonyRule, catchAllRule, testRule,
      spellingRule, linkcheckRule, livehtmlRule, livetestRule, List.find?,
      f1, f2, f3, f4, f5, f6,
      show (RuleKind.special == RuleKind.normal) = false from rfl,
      show (RuleKind.patternRule == RuleKind.normal) = false from rfl]
  have hr : resolveRule t = some catchAllRule := by
    simp only [resolveRule, e]
    decide
  refine ⟨hr, ?_⟩
  simp only [commandsFor, hr]
  rfl

/-- Witness for C1 at the concrete unknown target `latexpdf`. -/
theorem c1_catch_all_routing_witness :
    "latexpdf" ∉ explicitTargets
    ∧ (resolveRule "latexpdf" = some catchAllRule
       ∧ commandsFor "latexpdf"
         = [["sphinx-build", "-M", "latexpdf", ".", "_build", "-j", "1", "-aT"]]) :=
  ⟨by decide, c1_catch_all_routing "latexpdf" (by decide)⟩

/-- C5: every recipe line of every rule of the Makefile, at any target name,
carries the option flags `-j 1 -aT` (single-job, write-all, fresh-environment
invocation of the documentation builder). -/
theorem c5_all_builds_single_job (t : String) (r : MakeRule)
    (hr : r ∈ docsMakefileRules) (line : RecipeLine) (hl : line ∈ r.recipe) :
    ∃ pre post, line.toks.map (Tok.inst t) = pre ++ sphinxOpts ++ post := by
  simp only [docsMakefileRules, List.mem_cons, List.not_mem_nil, or_false] at hr
  rcases hr with rfl | rfl | rfl | rfl | rfl | rfl | rfl | rfl
  · simp only [helpRule, List.mem_singleton] at hl
    subst hl
    exact ⟨["sphinx-build", "-M", "help", ".", "_build"], [], rfl⟩
  · simp [phonyRule] at hl
  · simp only [catchAllRule, List.mem_singleton] at hl
    subst hl
    exact ⟨["sphinx-build", "-M", t, ".", "_build"], [], rfl⟩
  · simp only [testRule, List.mem_singleton] at hl
    subst hl
    exact ⟨["sphinx-build", "-nW", "-b", "dummy", ".", "_build"], [], rfl⟩
  · simp only [spellingRule, List.mem_singleton] at hl
    subst hl
    exact ⟨["sphinx-build", "-M", "spelling", ".", "_build"], ["-W"], rfl⟩
  · simp only [linkcheckRule, List.mem_singleton] at hl
    subst hl
    exact ⟨["sphinx-build", "-M", "linkcheck", ".", "_build"], ["-W"], rfl⟩
  · simp only [livehtmlRule, List.mem_singleton] at hl
    subst hl
    exact ⟨["sphinx-autobuild", "-b", "html"] ++ sphinxAuto, [".", "_build/html"], rfl⟩
  · simp only [livetestRule, List.mem_singleton] at hl
    subst hl
    exact ⟨["sphinx-autobuild", "-nW", "-b", "dummy"] ++ sphinxAuto, [".", "_build"], rfl⟩

/-- Witness for C5 at the help rule and the target name `html`. -/
theorem c5_all_builds_single_job_witness :
    ∃ pre post,
      (RecipeLine.mk true false
        (lits (["sphinx-build", "-M", "help", sourceDir, buildDir] ++ sphinxOpts))).toks.map
          (Tok.inst "html") = pre ++ sphinxOpts ++ post :=
  c5_all_builds_single_job "html" helpRule (by decide)
    (RecipeLine.mk true false
      (lits (["sphinx-build", "-M", "help", sourceDir, buildDir] ++ sphinxOpts)))
    (by decide)

/-- C8: the test, spelling, linkcheck and livetest recipes run the builder
with `-W` (warnings as errors; `-n` additionally for test and livetest), so a
warning fails exactly those targets, while help, livehtml and the catch-all
run without `-W` and succeed in the presence of warnings. -/
theorem c8_warning_mode_targets :
    warningsAsErrors (theRecipeCmd "test") = true
    ∧ nitpickFlag (theRecipeCmd "test") = true
    ∧ warningsAsErrors (theRecipeCmd "spelling") = true
    ∧ nitpickFlag (theRecipeCmd "spelling") = false
    ∧ warningsAsErrors (theRecipeCmd "linkcheck") = true
    ∧ nitpickFlag (theRecipeCmd "linkcheck") = false
    ∧ warningsAsErrors (theRecipeCmd "livetest") = true
    ∧ nitpickFlag (theRecipeCmd "livetest") = true
    ∧ warningsAsErrors (theRecipeCmd "help") = false
    ∧ warningsAsErrors (theRecipeCmd "livehtml") = false
    ∧ (∀ t : String,
        warningsAsErrors ((instantiateRecipe catchAllRule t).flatten) = false)
    ∧ (∀ w : Bool,
        sphinxFails (theRecipeCmd "test") w = w
        ∧ sphinxFails (theRecipeCmd "spelling") w = w
        ∧ sphinxFails (theRecipeCmd "linkcheck") w = w
        ∧ sphinxFails (theRecipeCmd "livetest") w = w
        ∧ sphinxFails (theRecipeCmd "help") w = false
        ∧ sphinxFails (theRecipeCmd "livehtml") w = false)
    ∧ (∀ (t : String) (w : Bool),
        sphinxFails ((instantiateRecipe catchAllRule t).flatten) w = false) := by
  have hc : ∀ t : String,
      warningsAsErrors ((instantiateRecipe catchAllRule t).flatten) = false :=
    fun t => rfl
  refine ⟨by decide, by decide, by decide, by decide, by decide, by decide,
    by decide, by decide, by decide, by decide, hc, ?_, ?_⟩
  · intro w
    refine ⟨?_, ?_, ?_, ?_, ?_, ?_⟩
    · simp only [sphinxFails, show warningsAsErrors (theRecipeCmd "test") = true from by decide,
        Bool.and_true]
    · simp only [sphinxFails,
        show warningsAsErrors (theRecipeCmd "spelling") = true from by decide, Bool.and_true]
    · simp only [sphinxFails,
        show warningsAsErrors (theRecipeCmd "linkcheck") = true from by decide, Bool.and_true]
    · simp only [sphinxFails,
        show warningsAsErrors (theRecipeCmd "livetest") = true from by decide, Bool.and_true]
    · simp only [sphinxFails,
        show warningsAsErrors (theRecipeCmd "help") = false from by decide, Bool.and_false]
    · simp only [sphinxFails,
        show warningsAsErrors (theRecipeCmd "livehtml") = false from by decide, Bool.and_false]
  · intro t w
    simp only [sphinxFails, hc t, Bool.and_false]

/-- Helper: a filtered list is non-empty exactly when some element satisfies
the filter. -/
theorem filter_nonempty_iff (p : String → Bool) (l : List String) :
    (!(l.filter p).isEmpty) = true ↔ ∃ f ∈ l, p f = true := by
  induction l with
  | nil => simp
  | cons a as ih =>
    by_cases h : p a = true
    · simp [List.filter_cons, h]
    · rw [Bool.not_eq_true] at h
      simp [List.filter_cons, h, ih]

/-- Helper: for either lint hook a changed file is selected exactly when it
matches the transcribed `files` regex (the default `types: [file]` filter
passes every path). -/
theorem lint_hook_selected_eq (h : Hook) (he : h.filesRe = some lintExamplesRe)
    (ht : h.fileTypes = ["file"]) :
    fileSelected h = fun f => reSearch lintExamplesRe f := by
  funext f
  simp [fileSelected, he, ht, typeMatches]

/-- C2: the lint-examples-flake8 and lint-examples-black hooks run exactly
when some changed file path matches `^examples\/(.+)\/([^\/]+).ipynb`; a path
outside the pattern never triggers them. A nested notebook matches, a
notebook directly under `examples/` or a path elsewhere does not. -/
theorem c2_lint_hooks_trigger_pattern (changed : List String) :
    (hookTriggered lintFlake8Hook changed = true
      ↔ ∃ f ∈ changed, reSearch lintExamplesRe f = true)
    ∧ (hookTriggered lintBlackHook changed = true
      ↔ ∃ f ∈ changed, reSearch lintExamplesRe f = true)
    ∧ reSearch lintExamplesRe
        "examples/Tutorial2_TrainComplexWaveFunction/tutorial_qubits.ipynb" = true
    ∧ reSearch lintExamplesRe "examples/toplevel.ipynb" = false
    ∧ reSearch lintExamplesRe "qucumber/nn_states.py" = false := by
  refine ⟨?_, ?_, by decide, by decide, by decide⟩
  · rw [hookTriggered, lint_hook_selected_eq lintFlake8Hook rfl rfl]
    exact filter_nonempty_iff _ _
  · rw [hookTriggered, lint_hook_selected_eq lintBlackHook rfl rfl]
    exact filter_nonempty_iff _ _

/-- Shell control words whose presence in a recipe would indicate branching,
retrying or error suppression at the shell level. -/
def shellControlWords : List String :=
  ["||", "&&", ";", "if", "then", "else", "fi", "while", "until", "for", "do", "done"]

/-- True when a recipe line has no make-level ignore-errors marker and no
shell-level control word. -/
def recipeLineNoHandling (l : RecipeLine) : Bool :=
  !l.ignoreErrors
  && l.toks.all (fun tok =>
    match tok with
    | Tok.lit s => !(shellControlWords.contains s)
    | Tok.targetVar => true)

/-- True when a hook command word list has no shell control word. -/
def wordsNoHandling (ws : List String) : Bool :=
  ws.all (fun w => !(shellControlWords.contains w))

/-- C7: no operation of the visible source contains an error-handling path,
a retry, or recovery logic: no notebook statement branches, loops, raises or
catches; no Makefile recipe line carries the ignore-errors marker or a shell
control word; no pre-commit hook entry or argument carries one either. -/
theorem c7_no_error_handling :
    notebookProgram.all (fun s => !isHandlingOrBranching s) = true
    ∧ docsMakefileRules.all (fun r => r.recipe.all recipeLineNoHandling) = true
    ∧ localHooks.all (fun h => wordsNoHandling h.entry) = true
    ∧ remoteHooks.all (fun rh => wordsNoHandling rh.2.2) = true := by
  exact ⟨by decide, by decide, by decide, by decide⟩

/-- C10: for any two changed-file sets that both trigger a local hook, the
executed command is identical, because `pass_filenames` is false for all
three local hooks. -/
theorem c10_hook_command_independent (h : Hook) (hh : h ∈ localHooks)
    (cs1 cs2 : List String) (h1 : hookTriggered h cs1 = true)
    (h2 : hookTriggered h cs2 = true) :
    hookCommand h cs1 = hookCommand h cs2 := by
  have hp : h.passFilenames = false := by
    simp only [localHooks, List.mem_cons, List.not_mem_nil, or_false] at hh
    rcases hh with rfl | rfl | rfl <;> rfl
  simp [hookCommand, h1, h2, hp]

/-- Witness for C10 at the license-check hook and two different changed-file
sets that both trigger it. -/
theorem c10_hook_command_independent_witness :
    licenseCheckHook ∈ localHooks
    ∧ hookTriggered licenseCheckHook ["setup.py"] = true
    ∧ hookTriggered licenseCheckHook ["qucumber/rbm.py", "README.md"] = true
    ∧ hookCommand licenseCheckHook ["setup.py"]
      = hookCommand licenseCheckHook ["qucumber/rbm.py", "README.md"] :=
  ⟨by decide, by decide, by decide,
   c10_hook_command_independent licenseCheckHook (by decide) _ _
     (by decide) (by decide)⟩

end QC





